import Mathlib

/-!
Verification of the Blixchain pool-coordinator core (server round controller,
ledger rules, transaction admission, difficulty/reward arithmetic) against a
shallow embedding of the JavaScript source.

The embedding keeps the source names (`sha256`, `doubleSha256`,
`calculateMerkleRoot`, `calculateBlockHash`, `calculateTarget`,
`hashMeetsTarget`, `isValidAddress`, `validateTransaction`, `addBlock`,
`startMiningRound`, `handlePoolJoin`, `handleSolutionSubmit`, ...).
SHA-256 itself is implemented concretely so that block hashes, merkle roots and
transaction ids evaluate to the exact hex digests Node's `crypto` module
produces, letting claims be settled on concrete inputs by kernel computation.
-/

set_option maxRecDepth 100000

namespace Blixchain

/-! ## SHA-256 (the digest used by `crypto.createHash('sha256')`) -/

/-- Word size modulus for 32-bit arithmetic. -/
def w32 : Nat := 4294967296

/-- All-ones 32-bit mask. -/
def wmask : Nat := 4294967295

/-- Addition modulo `2^32`. -/
def add32 (a b : Nat) : Nat := (a + b) % w32

/-- Right rotation of a 32-bit word by `n`. -/
def rotr (n x : Nat) : Nat := ((x >>> n) ||| (x <<< (32 - n))) &&& wmask

def smallSigma0 (x : Nat) : Nat := (rotr 7 x ^^^ rotr 18 x) ^^^ (x >>> 3)

def smallSigma1 (x : Nat) : Nat := (rotr 17 x ^^^ rotr 19 x) ^^^ (x >>> 10)

def bigSigma0 (x : Nat) : Nat := (rotr 2 x ^^^ rotr 13 x) ^^^ rotr 22 x

def bigSigma1 (x : Nat) : Nat := (rotr 6 x ^^^ rotr 11 x) ^^^ rotr 25 x

/-- The 64 standard SHA-256 round constants of FIPS 180-4 (the fractional
parts of the cube roots of the first 64 primes), written in decimal. -/
def K256 : List Nat :=
  [1116352408, 1899447441, 3049323471, 3921009573, 961987163,
   1508970993, 2453635748, 2870763221, 3624381080, 310598401,
   607225278, 1426881987, 1925078388, 2162078206, 2614888103,
   3248222580, 3835390401, 4022224774, 264347078, 604807628,
   770255983, 1249150122, 1555081692, 1996064986, 2554220882,
   2821834349, 2952996808, 3210313671, 3336571891, 3584528711,
   113926993, 338241895, 666307205, 773529912, 1294757372,
   1396182291, 1695183700, 1986661051, 2177026350, 2456956037,
   2730485921, 2820302411, 3259730800, 3345764771, 3516065817,
   3600352804, 4094571909, 275423344, 430227734, 506948616,
   659060556, 883997877, 958139571, 1322822218, 1537002063,
   1747873779, 1955562222, 2024104815, 2227730452, 2361852424,
   2428436474, 2756734187, 3204031479, 3329325298]

/-- The standard SHA-256 initial hash state of FIPS 180-4, in decimal. -/
def H256 : List Nat :=
  [1779033703, 3144134277, 1013904242, 2773480762,
   1359893119, 2600822924, 528734635, 1541459225]

/-- One extension word of the message schedule; `acc` holds the already
produced words most-recent first. -/
def scheduleStep (acc : List Nat) : Nat :=
  add32 (add32 (smallSigma1 (acc.getD 1 0)) (acc.getD 6 0))
    (add32 (smallSigma0 (acc.getD 14 0)) (acc.getD 15 0))

def scheduleExtend : Nat → List Nat → List Nat
  | 0, acc => acc
  | n + 1, acc => scheduleExtend n (scheduleStep acc :: acc)

/-- Extend 16 message words to the 64-word schedule. -/
def msgSchedule (ws : List Nat) : List Nat := (scheduleExtend 48 ws.reverse).reverse

/-- One SHA-256 compression round; the state is `[a,b,c,d,e,f,g,h]` and `kw`
is the (round constant, schedule word) pair. -/
def sha256Round (st : List Nat) (kw : Nat × Nat) : List Nat :=
  let a := st.getD 0 0
  let b := st.getD 1 0
  let c := st.getD 2 0
  let d := st.getD 3 0
  let e := st.getD 4 0
  let f := st.getD 5 0
  let g := st.getD 6 0
  let h := st.getD 7 0
  let ch := (e &&& f) ^^^ ((e ^^^ wmask) &&& g)
  let maj := ((a &&& b) ^^^ (a &&& c)) ^^^ (b &&& c)
  let temp1 := add32 (add32 (add32 h (bigSigma1 e)) (add32 ch kw.1)) kw.2
  let temp2 := add32 (bigSigma0 a) maj
  [add32 temp1 temp2, a, b, c, add32 d temp1, e, f, g]

/-- Compress one 16-word block into the running hash state. -/
def compressBlock (hs ws : List Nat) : List Nat :=
  let st := (K256.zip (msgSchedule ws)).foldl sha256Round hs
  (hs.zip st).map fun p => add32 p.1 p.2

/-- Fold `n` 16-word blocks of `ws` into the hash state. -/
def sha256Blocks : Nat → List Nat → List Nat → List Nat
  | 0, hs, _ => hs
  | n + 1, hs, ws => sha256Blocks n (compressBlock hs (ws.take 16)) (ws.drop 16)

/-- Big-endian bytes of a 32-bit word. -/
def wordBytes (w : Nat) : List Nat :=
  [(w >>> 24) &&& 255, (w >>> 16) &&& 255, (w >>> 8) &&& 255, w &&& 255]

/-- SHA-256 padding: `0x80`, zeros to 56 mod 64, then the 64-bit bit length. -/
def padBytes (msg : List Nat) : List Nat :=
  let len := msg.length
  let zeros := (119 - (len % 64)) % 64
  let bitLen := 8 * len
  msg ++ [128] ++ List.replicate zeros 0 ++
    (wordBytes (bitLen >>> 32) ++ wordBytes (bitLen &&& wmask))

/-- Group big-endian bytes into 32-bit words. -/
def bytesToWords : List Nat → List Nat
  | b0 :: b1 :: b2 :: b3 :: rest =>
      (((b0 <<< 24) ||| (b1 <<< 16)) ||| ((b2 <<< 8) ||| b3)) :: bytesToWords rest
  | _ => []

/-- SHA-256 of a byte sequence, as the 32 digest bytes. -/
def sha256Bytes (msg : List Nat) : List Nat :=
  let ws := bytesToWords (padBytes msg)
  let hs := sha256Blocks (ws.length / 16) H256 ws
  hs.foldr (fun w acc => wordBytes w ++ acc) []

/-- The UTF-8 encoding of one character (Node hashes strings as UTF-8). -/
def utf8Char (c : Char) : List Nat :=
  let n := c.toNat
  if n < 128 then [n]
  else if n < 2048 then [192 ||| (n >>> 6), 128 ||| (n &&& 63)]
  else if n < 65536 then
    [224 ||| (n >>> 12), 128 ||| ((n >>> 6) &&& 63), 128 ||| (n &&& 63)]
  else
    [240 ||| (n >>> 18), 128 ||| ((n >>> 12) &&& 63),
     128 ||| ((n >>> 6) &&& 63), 128 ||| (n &&& 63)]

def utf8Bytes (s : String) : List Nat := (s.data.map utf8Char).flatten

/-- Lowercase hex digit. -/
def hexDigit (n : Nat) : Char :=
  if n < 10 then Char.ofNat (48 + n) else Char.ofNat (87 + n)

def byteToHex (b : Nat) : String := String.mk [hexDigit (b / 16), hexDigit (b % 16)]

/-- Hex encoding of bytes, as produced by `.digest('hex')`. -/
def bytesToHex (bs : List Nat) : String := String.join (bs.map byteToHex)

/-- Source `crypto.js` / `sha256`: hex SHA-256 digest of a string. -/
def sha256 (data : String) : String := bytesToHex (sha256Bytes (utf8Bytes data))

/-- Source `crypto.js` / `doubleSha256`: the first digest is hashed again as
raw bytes, the second digest is returned in hex. -/
def doubleSha256 (data : String) : String :=
  bytesToHex (sha256Bytes (sha256Bytes (utf8Bytes data)))

/-! ## JSON serialization (`JSON.stringify` on the objects the source builds)

The numeric transaction and block fields are modelled as integers: every value
the coordinator itself produces for them (heights, `Date.now()` timestamps,
nonce counters, difficulties) is an integer-valued JS number, and for integers
`JSON.stringify` prints the plain decimal numeral, which is what `toString`
produces here. -/

/-- One character of `JSON.stringify` string quoting. -/
def jsonEscapeChar (c : Char) : String :=
  if c = '"' then ("\\\"")
  else if c = '\\' then ("\\\\")
  else if c.toNat = 8 then ("\\b")
  else if c.toNat = 9 then ("\\t")
  else if c.toNat = 10 then ("\\n")
  else if c.toNat = 12 then ("\\f")
  else if c.toNat = 13 then ("\\r")
  else if c.toNat < 32 then ("\\u00" ++ String.mk [hexDigit (c.toNat / 16), hexDigit (c.toNat % 16)])
  else String.mk [c]

/-- A JSON string literal as `JSON.stringify` prints it. -/
def jsonString (s : String) : String :=
  "\"" ++ String.join (s.data.map jsonEscapeChar) ++ "\""

/-! ## Protocol constants (`src/shared/protocol.js`) -/

def MIN_POOL_SIZE : Nat := 2

def TARGET_BLOCK_TIME_MS : Nat := 360000

def DIFFICULTY_ADJUSTMENT_BLOCKS : Nat := 10

def INITIAL_BLOCK_REWARD : ℚ := 50

def HALVING_INTERVAL : Nat := 210000

def MIN_TRANSACTION_FEE : ℚ := 1 / 10000

def MAX_TRANSACTIONS_PER_BLOCK : Nat := 500

/-- Server-local bound on the pending pool (`src/server/index.js`). -/
def MAX_PENDING_TRANSACTIONS : Nat := 10000

/-! ## Wallet module (`src/shared/wallet.js`) -/

/-- A character matched by the source's `/^[0-9A-F]+$/i`. -/
def isHexAddressChar (c : Char) : Bool :=
  c.isDigit || (65 ≤ c.toNat && c.toNat ≤ 70) || (97 ≤ c.toNat && c.toNat ≤ 102)

/-- Source `isValidAddress`: the string starts with the prefix `BLX`, its
length is the prefix length plus 32, and everything after the prefix matches
`/^[0-9A-F]+$/i` (stated on the character list, which makes it kernel
computable; the length bound forces the regex's one-or-more). -/
def isValidAddress (address : String) : Bool :=
  match address.data with
  | 'B' :: 'L' :: 'X' :: rest => (rest.length == 32) && rest.all isHexAddressChar
  | _ => false

/-- The signature object produced by the wallet `sign` routine. -/
structure Sig where
  r : String
  s : String
  messageHash : String
deriving DecidableEq, Repr

/-- Source `verify`: it only recomputes SHA-256 of the message and compares it
with the `messageHash` field of the signature; the public key is unused. -/
def verify (message : String) (signature : Sig) (publicKeyHex : String) : Bool :=
  signature.messageHash == sha256 message

/-! ## Crypto module (`src/shared/crypto.js`) -/

/-- One level of the merkle loop body: pairs are hashed left-to-right and an
odd trailing element is paired with itself. -/
def merkleLevel : List String → List String
  | [] => []
  | [left] => [sha256 (left ++ left)]
  | left :: right :: rest => sha256 (left ++ right) :: merkleLevel rest

/-- The `while (hashes.length > 1)` loop, with enough fuel to reach a fixpoint
(each pass at least halves a list of length `≥ 2`). -/
def merkleReduce : Nat → List String → List String
  | 0, hs => hs
  | n + 1, hs => if hs.length > 1 then merkleReduce n (merkleLevel hs) else hs

/-- Source `calculateMerkleRoot`. The server always passes transaction
objects, which the source serializes with `JSON.stringify`; the list elements
here are those serialized transactions (the source's string case hashes them
directly). -/
def calculateMerkleRoot (transactions : List String) : String :=
  if transactions.length = 0 then sha256 ("empty")
  else
    let hashes := transactions.map sha256
    (merkleReduce hashes.length hashes).getD 0 ("")

/-- Numeric value of a hex digit (`BigInt` parsing; source inputs are valid). -/
def hexVal (c : Char) : Nat :=
  if c.isDigit then c.toNat - 48
  else if 97 ≤ c.toNat ∧ c.toNat ≤ 102 then c.toNat - 87
  else if 65 ≤ c.toNat ∧ c.toNat ≤ 70 then c.toNat - 55
  else 0

/-- Value of `BigInt('0x' + s)` for a hex string. -/
def hexToNat (s : String) : Nat := s.data.foldl (fun acc c => acc * 16 + hexVal c) 0

/-- Value of `BigInt('0x' + 'f'.repeat(64))`. -/
def maxTarget : Nat := 16 ^ 64 - 1

/-- Source `calculateTarget`: 256-bit max value divided by the difficulty. -/
def calculateTarget (difficulty : Nat) : Nat := maxTarget / max 1 difficulty

/-- Source `hashMeetsTarget`. -/
def hashMeetsTarget (hash : String) (difficulty : Nat) : Bool :=
  hexToNat hash < calculateTarget difficulty

/-! ## Transactions -/

/-- A transaction as posted to `/transaction/submit`, restricted to
integer-valued numeric fields (see the JSON note above). -/
structure TxIn where
  sender : String
  recipient : String
  amount : Int
  fee : Int
  nonce : Int
  timestamp : Int
  signature : Sig
  senderPublicKey : String
deriving DecidableEq, Repr

/-- The canonical payload `JSON.stringify({sender, recipient, amount, fee,
nonce, timestamp})` used both for signature verification and for the
transaction id. -/
def txCanonicalJson (tx : TxIn) : String :=
  "\x7b\"sender\":" ++ jsonString tx.sender ++
  ",\"recipient\":" ++ jsonString tx.recipient ++
  ",\"amount\":" ++ toString tx.amount ++
  ",\"fee\":" ++ toString tx.fee ++
  ",\"nonce\":" ++ toString tx.nonce ++
  ",\"timestamp\":" ++ toString tx.timestamp ++ "\x7d"

/-- The deterministic transaction id assigned by the submit route. -/
def txId (tx : TxIn) : String := sha256 (txCanonicalJson tx)

/-- A transaction held in the pending pool, after the route stamped `tx.id`. -/
structure AdmittedTx where
  tx : TxIn
  id : String
deriving DecidableEq, Repr

/-- Serialization of a pooled transaction object (submission key order, with
the stamped `id` appended last, as property insertion order dictates). -/
def admittedTxJson (a : AdmittedTx) : String :=
  "\x7b\"sender\":" ++ jsonString a.tx.sender ++
  ",\"recipient\":" ++ jsonString a.tx.recipient ++
  ",\"amount\":" ++ toString a.tx.amount ++
  ",\"fee\":" ++ toString a.tx.fee ++
  ",\"nonce\":" ++ toString a.tx.nonce ++
  ",\"timestamp\":" ++ toString a.tx.timestamp ++
  ",\"signature\":\x7b\"r\":" ++ jsonString a.tx.signature.r ++
  ",\"s\":" ++ jsonString a.tx.signature.s ++
  ",\"messageHash\":" ++ jsonString a.tx.signature.messageHash ++
  "\x7d,\"senderPublicKey\":" ++ jsonString a.tx.senderPublicKey ++
  ",\"id\":" ++ jsonString a.id ++ "\x7d"

/-- Source `validateTransaction` (hardened server variant): the checks in
their source order, returning the first failure reason. Checks that can only
fail for JS values outside this model (wrong `typeof`, non-finite numbers,
fractional nonce, missing properties) are carried by the corresponding
representable conditions. -/
def validateTransaction (tx : TxIn) : Option String :=
  if tx.sender = "" ∨ tx.recipient = "" then
    some ("Missing required fields: sender, recipient, amount")
  else if ¬ isValidAddress tx.sender then some ("Invalid sender address format")
  else if ¬ isValidAddress tx.recipient then some ("Invalid recipient address format")
  -- the fee check `tx.fee < MIN_TRANSACTION_FEE` (fee < 1/10000) appears below
  -- with the denominator cleared, keeping the integer model kernel-computable
  else if ¬ 0 < tx.amount then some ("Amount must be a positive number")
  else if 10000 * tx.fee < 1 then some ("Fee must be at least 0.0001")
  else if tx.nonce < 0 then some ("Nonce must be a non-negative integer")
  else if ¬ 0 < tx.timestamp then some ("Timestamp must be a positive number")
  else if tx.senderPublicKey = "" then some ("Sender public key is required")
  else if ¬ verify (txCanonicalJson tx) tx.signature tx.senderPublicKey then
    some ("Invalid transaction signature")
  else none

/-! ## Blocks -/

/-- A block as the coordinator stores it. `reward` is `none` where the JS
object has no `reward` property (the genesis block). -/
structure Block where
  index : Nat
  timestamp : Int
  previousHash : String
  merkleRoot : String
  nonce : Int
  difficulty : Nat
  miner : String
  transactions : List AdmittedTx
  reward : Option ℚ
  hash : String
deriving DecidableEq, Repr

/-- The canonical header object serialized inside `calculateBlockHash`:
exactly `index`, `timestamp`, `previousHash`, `merkleRoot`, `nonce`,
`difficulty`, in that key order. -/
def headerJson (block : Block) : String :=
  "\x7b\"index\":" ++ toString block.index ++
  ",\"timestamp\":" ++ toString block.timestamp ++
  ",\"previousHash\":" ++ jsonString block.previousHash ++
  ",\"merkleRoot\":" ++ jsonString block.merkleRoot ++
  ",\"nonce\":" ++ toString block.nonce ++
  ",\"difficulty\":" ++ toString block.difficulty ++ "\x7d"

/-- Source `calculateBlockHash`: double SHA-256 of the canonical header. -/
def calculateBlockHash (block : Block) : String := doubleSha256 (headerJson block)

/-! ## Coordinator state (`src/server/index.js`, the hardened variant) -/

/-- The block template frozen into a mining challenge (no `nonce`, `miner` or
`hash` yet). -/
structure BlockTemplate where
  index : Nat
  timestamp : Int
  previousHash : String
  merkleRoot : String
  difficulty : Nat
  transactions : List AdmittedTx
  reward : ℚ
deriving DecidableEq, Repr

structure Challenge where
  blockTemplate : BlockTemplate
  startedAt : Int
  difficulty : Nat
deriving DecidableEq, Repr

/-- The coordinator's mutable state. `connectedWallets` keeps JS `Map`
insertion order as (address, joinedAt) pairs; `processedTxIds` keeps JS `Set`
insertion order. -/
structure BlixnodeServer where
  connectedWallets : List (String × Int)
  pendingTransactions : List AdmittedTx
  processedTxIds : List String
  chain : List Block
  currentChallenge : Option Challenge
  miningInProgress : Bool
  genesisTime : Int
  totalSupply : ℚ
  difficulty : Nat
deriving DecidableEq, Repr

/-- Source `createGenesisBlock`: the fixed genesis object (no `reward`
property), with its `hash` filled in by `calculateBlockHash`. -/
def createGenesisBlock (genesisTime : Int) : Block :=
  let genesis : Block :=
    { index := 0, timestamp := genesisTime,
      previousHash := String.mk (List.replicate 64 '0'),
      merkleRoot := sha256 ("genesis"), nonce := 0, difficulty := 1,
      miner := "BLIX_GENESIS", transactions := [], reward := none, hash := "" }
  { genesis with hash := calculateBlockHash genesis }

/-- The constructor's initial state (fields as initialized, then the genesis
block pushed). -/
def initState (genesisTime : Int) : BlixnodeServer :=
  { connectedWallets := [], pendingTransactions := [], processedTxIds := [],
    chain := [createGenesisBlock genesisTime], currentChallenge := none,
    miningInProgress := false, genesisTime := genesisTime, totalSupply := 0,
    difficulty := 1 }

/-- Source `canStartMining`. -/
def canStartMining (s : BlixnodeServer) : Bool :=
  MIN_POOL_SIZE ≤ s.connectedWallets.length

/-- Source `calculateBlockReward`, exact over `ℚ`: the float division
`INITIAL_BLOCK_REWARD / Math.pow(2, halvings)` is exact for every halving
count below the subnormal range. -/
def calculateBlockReward (chainLength : Nat) : ℚ :=
  INITIAL_BLOCK_REWARD / 2 ^ (chainLength / HALVING_INTERVAL)

/-- Source `adjustDifficulty`, as a function of the data it reads: the chain's
block timestamps, the current difficulty, and the two exponential growth
factors `Math.pow(1.0001, totalSupply/1000000)` and
`Math.pow(1.00005, (Date.now() - genesisTime)/86400000)`. Those two factors
are irrational-valued powers of the float state, so they enter here as
parameters: every theorem about this function holds for every value they can
take. JS evaluates `expectedTime/actualTime` to `Infinity` when `actualTime`
is `0`, which the clamp turns into `2`; the `if` reproduces that. -/
def adjustDifficulty (chainTimestamps : List Int) (supplyFactor timeFactor : ℚ)
    (difficulty : ℚ) : ℚ :=
  if chainTimestamps.length < DIFFICULTY_ADJUSTMENT_BLOCKS + 1 then difficulty
  else
    let recent := chainTimestamps.drop (chainTimestamps.length - DIFFICULTY_ADJUSTMENT_BLOCKS)
    let actualTime : ℚ := ((recent.getLastD 0 - recent.headD 0 : Int) : ℚ)
    let expectedTime : ℚ := (TARGET_BLOCK_TIME_MS : ℚ) * (DIFFICULTY_ADJUSTMENT_BLOCKS : ℚ)
    let adjustment := if actualTime = 0 then 2 else max (1 / 2) (min 2 (expectedTime / actualTime))
    max 1 (⌊difficulty * adjustment * supplyFactor * timeFactor⌋ : ℚ)

/-- Nondeterministic inputs of a coordinator step: the `Date.now()` clock and
the integer value of the float difficulty computed by `adjustDifficulty`
(always of the form `max 1 ⌊…⌋`; cf. `adjustDifficulty`). -/
structure Env where
  now : Int
  newDifficulty : Nat
deriving DecidableEq, Repr

/-- The state effect of `adjustDifficulty` inside the machine: a no-op while
the chain is shorter than `DIFFICULTY_ADJUSTMENT_BLOCKS + 1`, otherwise the
environment-supplied `max(1, floor(…))` value. -/
def adjustedDifficulty (env : Env) (s : BlixnodeServer) : Nat :=
  if s.chain.length < DIFFICULTY_ADJUSTMENT_BLOCKS + 1 then s.difficulty
  else max 1 env.newDifficulty

/-- Source `startMiningRound`: guard, difficulty adjustment, template built
from the chain tip and the first `MAX_TRANSACTIONS_PER_BLOCK` pending
transactions, challenge installed. -/
def startMiningRound (env : Env) (s : BlixnodeServer) : BlixnodeServer :=
  if ¬ canStartMining s ∨ s.miningInProgress then s
  else
    let s0 := { s with miningInProgress := true, difficulty := adjustedDifficulty env s }
    let lastBlock := s0.chain.getLastD (createGenesisBlock 0)
    let blockReward := calculateBlockReward s0.chain.length
    let transactions := s0.pendingTransactions.take MAX_TRANSACTIONS_PER_BLOCK
    let blockTemplate : BlockTemplate :=
      { index := s0.chain.length, timestamp := env.now,
        previousHash := lastBlock.hash,
        merkleRoot := calculateMerkleRoot (transactions.map admittedTxJson),
        difficulty := s0.difficulty, transactions := transactions,
        reward := blockReward }
    let challenge : Challenge :=
      { blockTemplate := blockTemplate, startedAt := env.now, difficulty := s0.difficulty }
    { s0 with currentChallenge := some challenge }

/-- Source `addBlock`: push the block, add its reward (a missing `reward`
property contributes `0` via `|| 0`), mark its transaction ids processed,
purge them from the pending pool, cap the processed-id set at the newest
50000 entries once it exceeds 100000. -/
def addBlock (s : BlixnodeServer) (block : Block) : BlixnodeServer :=
  let minedTxIds := block.transactions.map AdmittedTx.id
  let processed := minedTxIds.foldl
    (fun acc txid => if acc.contains txid then acc else acc ++ [txid]) s.processedTxIds
  let processedCapped :=
    if processed.length > 100000 then processed.drop (processed.length - 50000) else processed
  { s with
    chain := s.chain ++ [block],
    totalSupply := s.totalSupply + block.reward.getD 0,
    processedTxIds := processedCapped,
    pendingTransactions := s.pendingTransactions.filter fun tx => !(minedTxIds.contains tx.id) }

/-- Responses of the solution-submission handler. -/
inductive SubmitResp where
  | errorResp (message : String)
  | rejected (reason : String)
  | mined (block : Block)
deriving DecidableEq, Repr

/-- Responses of the `/transaction/submit` route. -/
inductive TxResp where
  | invalid (message : String)
  | replay (message : String)
  | poolFull (message : String)
  | admitted (transactionId : String)
deriving DecidableEq, Repr

/-- Responses of the pool-join handler. -/
inductive JoinResp where
  | errorResp (message : String)
  | joined (walletAddress : String) (poolSize : Nat) (canMine : Bool)
deriving DecidableEq, Repr

/-- The `POST /transaction/submit` route (hardened variant): validation, id
stamping, replay check against `processedTxIds`, capacity check, admission. -/
def submitTransaction (s : BlixnodeServer) (tx : TxIn) : BlixnodeServer × TxResp :=
  match validateTransaction tx with
  | some reason => (s, .invalid reason)
  | none =>
    if s.processedTxIds.contains (txId tx) then
      (s, .replay ("Transaction already processed (possible replay attack)"))
    else if MAX_PENDING_TRANSACTIONS ≤ s.pendingTransactions.length then
      (s, .poolFull ("Transaction pool is full, please try again later"))
    else
      ({ s with pendingTransactions := s.pendingTransactions ++ [⟨tx, txId tx⟩] },
       .admitted (txId tx))

/-- Source `handlePoolJoin`: address validation, duplicate rejection,
registration, and a synchronous `startMiningRound` when the pool can mine and
no round is in progress. -/
def handlePoolJoin (env : Env) (s : BlixnodeServer) (walletAddress : String) :
    BlixnodeServer × JoinResp :=
  if ¬ isValidAddress walletAddress then (s, .errorResp ("Invalid wallet address"))
  else if (s.connectedWallets.map Prod.fst).contains walletAddress then
    (s, .errorResp ("Wallet already connected"))
  else
    -- the registered state (the source's `this.connectedWallets.set(...)`),
    -- written out at each use site
    (if canStartMining
          { s with connectedWallets := s.connectedWallets ++ [(walletAddress, env.now)] } &&
        !s.miningInProgress then
      startMiningRound env
        { s with connectedWallets := s.connectedWallets ++ [(walletAddress, env.now)] }
     else { s with connectedWallets := s.connectedWallets ++ [(walletAddress, env.now)] },
     .joined walletAddress (s.connectedWallets ++ [(walletAddress, env.now)]).length
       (canStartMining
         { s with connectedWallets := s.connectedWallets ++ [(walletAddress, env.now)] }))

/-- A `solution:submit` message. -/
structure SubmitMsg where
  walletAddress : String
  nonce : Int
  hash : String
deriving DecidableEq, Repr

/-- The candidate block `{...blockTemplate, nonce, miner}` assembled by the
solution handler (its `hash` property still unset). -/
def solutionBlock (t : BlockTemplate) (nonce : Int) (miner : String) : Block :=
  { index := t.index, timestamp := t.timestamp, previousHash := t.previousHash,
    merkleRoot := t.merkleRoot, nonce := nonce, difficulty := t.difficulty,
    miner := miner, transactions := t.transactions, reward := some t.reward, hash := "" }

/-- Source `handleSolutionSubmit`: no-challenge guard, hash recomputation,
target check, then commit (block finalized, appended, round cleared). -/
def handleSolutionSubmit (s : BlixnodeServer) (m : SubmitMsg) :
    BlixnodeServer × SubmitResp :=
  match s.currentChallenge with
  | none => (s, .errorResp ("No active challenge"))
  | some ch =>
    if calculateBlockHash (solutionBlock ch.blockTemplate m.nonce m.walletAddress) ≠ m.hash then
      (s, .rejected ("Hash mismatch"))
    else if !hashMeetsTarget m.hash s.difficulty then
      (s, .rejected ("Does not meet difficulty target"))
    else
      -- the finalized block `{...blockTemplate, nonce, miner, hash}`, written
      -- out at both use sites
      ({ addBlock s
          { solutionBlock ch.blockTemplate m.nonce m.walletAddress with
            hash := calculateBlockHash (solutionBlock ch.blockTemplate m.nonce m.walletAddress) } with
         miningInProgress := false, currentChallenge := none },
       .mined { solutionBlock ch.blockTemplate m.nonce m.walletAddress with
         hash := calculateBlockHash (solutionBlock ch.blockTemplate m.nonce m.walletAddress) })

/-- The WebSocket close handler: the wallet is removed from the registry. -/
def handleDisconnect (s : BlixnodeServer) (walletAddress : String) : BlixnodeServer :=
  { s with connectedWallets := s.connectedWallets.filter fun p => !(p.1 == walletAddress) }

/-- One serialized coordinator event (Node's event loop runs every handler to
completion before the next message is processed). `roundTimer` is the
deferred `setTimeout(() => this.startMiningRound(), 1000)` callback;
`startMiningRound` itself re-checks its guard. -/
inductive Event where
  | txSubmit (tx : TxIn)
  | poolJoin (env : Env) (walletAddress : String)
  | solutionSubmit (m : SubmitMsg)
  | disconnect (walletAddress : String)
  | roundTimer (env : Env)

/-- The state transition of one event. -/
def step (s : BlixnodeServer) : Event → BlixnodeServer
  | .txSubmit tx => (submitTransaction s tx).1
  | .poolJoin env a => (handlePoolJoin env s a).1
  | .solutionSubmit m => (handleSolutionSubmit s m).1
  | .disconnect a => handleDisconnect s a
  | .roundTimer env => startMiningRound env s

/-- States reachable from a freshly constructed coordinator. -/
inductive Reachable : BlixnodeServer → Prop
  | init (genesisTime : Int) : Reachable (initState genesisTime)
  | next {s : BlixnodeServer} (e : Event) : Reachable s → Reachable (step s e)

/-! ## Invariant statements (claims C2 and C10) -/

/-- Every block's `index` field equals its position in the chain. -/
def ChainIndexed (c : List Block) : Prop :=
  ∀ i (hi : i < c.length), (c.get ⟨i, hi⟩).index = i

/-- Every non-genesis block's `previousHash` equals the double SHA-256 of the
previous block's canonical header. -/
def ChainLinked (c : List Block) : Prop :=
  ∀ i (hi : i + 1 < c.length),
    (c.get ⟨i + 1, hi⟩).previousHash =
      doubleSha256 (headerJson (c.get ⟨i, Nat.lt_of_succ_lt hi⟩))

/-- The chain tip's stored `hash` is its own recomputed block hash. -/
def TipHashed (c : List Block) : Prop :=
  ∀ b, c.getLast? = some b → b.hash = calculateBlockHash b

/-- Any open challenge extends the current tip at the next height. -/
def ChallengeConsistent (s : BlixnodeServer) : Prop :=
  ∀ ch, s.currentChallenge = some ch →
    ch.blockTemplate.index = s.chain.length ∧
    ∀ b, s.chain.getLast? = some b → ch.blockTemplate.previousHash = b.hash

/-- The supply accounts exactly for the committed rewards, and the genesis
block carries no reward property. -/
def SupplyAccounted (s : BlixnodeServer) : Prop :=
  s.totalSupply = (s.chain.map fun b => b.reward.getD 0).sum ∧
  ∀ b, s.chain.head? = some b → b.reward = none

/-- The inductive invariant of the coordinator state machine. -/
def StateInv (s : BlixnodeServer) : Prop :=
  s.chain ≠ [] ∧ ChainIndexed s.chain ∧ ChainLinked s.chain ∧ TipHashed s.chain ∧
  ChallengeConsistent s ∧ SupplyAccounted s

/-! ## Response classifiers and specification-side conditions -/

/-- Whether a submission response committed a block. -/
def isMined : SubmitResp → Bool
  | .mined _ => true
  | _ => false

/-- Whether a submission response is a rejection (either the no-challenge
error or an explicit `solution:rejected` reason). -/
def isRejection : SubmitResp → Bool
  | .mined _ => false
  | .errorResp _ => true
  | .rejected _ => true

/-- The claim's rejection condition for C5, written from the spec's words: no
round is active, or the recomputed header hash over (template + submitted
nonce + claimed miner) differs from the submitted hash, or the hash as a big
unsigned integer is not strictly below `target = MAX_256BIT / difficulty`. -/
def rejectionSpec (s : BlixnodeServer) (m : SubmitMsg) : Bool :=
  match s.currentChallenge with
  | none => true
  | some ch =>
    (calculateBlockHash (solutionBlock ch.blockTemplate m.nonce m.walletAddress) != m.hash) ||
    !(decide (hexToNat m.hash < maxTarget / s.difficulty))

/-- Whether a join response is an error. -/
def isJoinError : JoinResp → Bool
  | .errorResp _ => true
  | _ => false

/-- The clamped base ratio of claim C6: `expectedTime/actualTime` clamped to
`[0.5, 2.0]` (written from the claim's words, for comparison with the
source-derived `adjustDifficulty`). -/
def clampedRatioSpec (actualTime : ℚ) : ℚ :=
  max (1 / 2) (min 2 (((TARGET_BLOCK_TIME_MS : ℚ) * (DIFFICULTY_ADJUSTMENT_BLOCKS : ℚ)) / actualTime))

/-- The last `DIFFICULTY_ADJUSTMENT_BLOCKS` timestamps (`chain.slice(-10)`). -/
def recentWindow (ts : List Int) : List Int :=
  ts.drop (ts.length - DIFFICULTY_ADJUSTMENT_BLOCKS)

/-- The window time `lastBlock.timestamp - firstBlock.timestamp`. -/
def actualMiningTime (ts : List Int) : ℚ :=
  (((recentWindow ts).getLastD 0 - (recentWindow ts).headD 0 : Int) : ℚ)

/-! ## Concrete witness data -/

/-- A fixed valid-looking wallet address (prefix `BLX` plus 32 hex chars). -/
def walletA : String := "BLX" ++ String.mk (List.replicate 32 'A')

/-- A second, distinct valid wallet address. -/
def walletB : String := "BLX" ++ String.mk (List.replicate 32 'B')

/-- A concrete open round for the C1 witness: template at height 1 on top of
the genesis block, difficulty 1. -/
def witnessTemplate : BlockTemplate :=
  { index := 1, timestamp := 1, previousHash := (createGenesisBlock 0).hash,
    merkleRoot := sha256 ("empty"), difficulty := 1, transactions := [], reward := 50 }

/-- A coordinator state with the concrete round open. -/
def witnessChallengeState : BlixnodeServer :=
  { initState 0 with
    connectedWallets := [(walletA, 0), (walletB, 0)],
    currentChallenge := some { blockTemplate := witnessTemplate, startedAt := 1, difficulty := 1 },
    miningInProgress := true }

/-- A winning submission for that round: its hash is the recomputed header
hash itself, and difficulty 1 makes the target `2^256 - 1`, which every
digest except all-`f` meets. -/
def witnessSubmit : SubmitMsg :=
  { walletAddress := walletA, nonce := 0,
    hash := calculateBlockHash (solutionBlock witnessTemplate 0 walletA) }

/-- A submission against an idle coordinator (no active round). -/
def staleSubmitMsg : SubmitMsg := { walletAddress := walletA, nonce := 0, hash := "00" }

/-- Helper for building the concrete valid transaction of the C3 witness: the
payload before the signature is attached (the canonical JSON does not read
the signature). -/
def cTxBase : TxIn :=
  { sender := walletA, recipient := walletB, amount := 1, fee := 1, nonce := 0,
    timestamp := 1, signature := { r := "00", s := "00", messageHash := "" },
    senderPublicKey := "02aa" }

/-- A concrete transaction that passes every validation check: its signature's
`messageHash` is the SHA-256 of the canonical payload, which is all the
source's `verify` inspects. -/
def cTx : TxIn :=
  { cTxBase with
    signature := { r := "00", s := "00", messageHash := sha256 (txCanonicalJson cTxBase) } }

/-- A coordinator that already has `walletA` registered, for the C8 witness. -/
def joinDupState : BlixnodeServer :=
  { initState 0 with connectedWallets := [(walletA, 0)] }

/-- A concrete candidate block claimed by miner `BLXAA…`, for the C9 witness. -/
def blockByMinerA : Block :=
  { index := 1, timestamp := 7, previousHash := "aa", merkleRoot := "bb",
    nonce := 3, difficulty := 2, miner := "BLX" ++ String.mk (List.replicate 32 'A'),
    transactions := [], reward := some 50, hash := "" }

/-- An arbitrary pooled transaction used to vary the `transactions` field. -/
def someAdmittedTx : AdmittedTx :=
  { tx := { sender := "x", recipient := "y", amount := 1, fee := 1, nonce := 0,
            timestamp := 1, signature := ⟨"", "", ""⟩, senderPublicKey := "" },
    id := "someid" }

/-- The same header as `blockByMinerA` claimed by a different miner, with
different transactions, reward and hash fields. -/
def blockByMinerB : Block :=
  { blockByMinerA with
    miner := "BLX" ++ String.mk (List.replicate 32 'B'),
    transactions := [someAdmittedTx],
    reward := none, hash := "ff" }

/-- A block used to exercise `addBlock` in the C10 witness. -/
def supplyWitnessBlock : Block :=
  { index := 1, timestamp := 0, previousHash := "", merkleRoot := "", nonce := 0,
    difficulty := 1, miner := "m", transactions := [], reward := some 50, hash := "" }

/-! ## Sanity anchors for the SHA-256 embedding (FIPS 180-4 test vectors) -/

example : sha256 ("") = "e3b0c44298fc1c149afbf4c8996fb92427ae41e4649b934ca495991b7852b855" := by decide

example : sha256 ("abc") = "ba7816bf8f01cfea414140de5dae2223b00361a396177a9cb410ff61f20015ad" := by decide

example : sha256 ("empty") = "2e1cfa82b035c26cbbbdae632cea070514eb8b773f616aaeaf668e2f0be8f10d" := by decide

/-! ## Claim C4 — merkle root base cases -/

/-- Claim C4, counterexample: for the singleton list the source's
`while (hashes.length > 1)` loop never runs, so the merkle root of `["a"]` is
`H("a")` itself and differs from the duplicated-pair value `H(H("a")+H("a"))`
the claim asserts. -/
theorem calculateMerkleRoot_singleton_counterexample :
    calculateMerkleRoot ["a"] ≠ sha256 (sha256 ("a") ++ sha256 ("a")) := by decide

/-- Claim C4 (amended): the merkle root of the empty list is the fixed
constant `sha256 ("empty")` (spelled out as its digest), the merkle root of a
singleton `[A]` is `H(A)` itself — duplication of an odd last element only
happens at levels of length at least two — and the merkle root of `[A, B]` is
`H(H(A)+H(B))`, where `H` is SHA-256 over the serialized transaction. -/
theorem calculateMerkleRoot_base_cases :
    calculateMerkleRoot [] =
      "2e1cfa82b035c26cbbbdae632cea070514eb8b773f616aaeaf668e2f0be8f10d" ∧
    (∀ A : String, calculateMerkleRoot [A] = sha256 A) ∧
    (∀ A B : String, calculateMerkleRoot [A, B] = sha256 (sha256 A ++ sha256 B)) :=
  ⟨by decide, fun A => rfl, fun A B => rfl⟩

/-! ## Claim C7 — block reward halving -/

/-- Claim C7, counterexample: the code performs the exact division
`INITIAL_BLOCK_REWARD / 2^halvings` with no flooring step. At height
2,100,000 (ten halvings) the reward is `25/512 = 0.048828125`, which is not a
multiple of the protocol's minimum unit `10^-DECIMALS = 10^-8`: flooring at
that unit would give `0.04882812`, so the claim's "floored at a minimum unit"
clause fails there. -/
theorem calculateBlockReward_no_floor_counterexample :
    calculateBlockReward 2100000 ≠
      (⌊calculateBlockReward 2100000 * 10 ^ 8⌋ : ℚ) / 10 ^ 8 := by
  norm_num [calculateBlockReward, INITIAL_BLOCK_REWARD, HALVING_INTERVAL, Int.floor_eq_iff]

/-- Claim C7 (amended): the reward for a template at height `index` equals
`InitialReward / 2^floor(index/HALVING_INTERVAL)` exactly (no flooring at any
minimum unit); in particular the reward at height 210,000 is exactly half the
height-0 reward and the reward at height 420,000 exactly one quarter of it. -/
theorem calculateBlockReward_halving :
    (∀ index : Nat, calculateBlockReward index =
      INITIAL_BLOCK_REWARD / 2 ^ (index / HALVING_INTERVAL)) ∧
    calculateBlockReward 210000 = calculateBlockReward 0 / 2 ∧
    calculateBlockReward 420000 = calculateBlockReward 0 / 4 :=
  ⟨fun _ => rfl,
   by norm_num [calculateBlockReward, INITIAL_BLOCK_REWARD, HALVING_INTERVAL],
   by norm_num [calculateBlockReward, INITIAL_BLOCK_REWARD, HALVING_INTERVAL]⟩

/-! ## Claim C9 — the proof-of-work hash does not bind the miner -/

/-- Claim C9: `calculateBlockHash` reads only `index`, `timestamp`,
`previousHash`, `merkleRoot`, `nonce` and `difficulty`; two candidate blocks
agreeing on those six fields have the same block hash however much their
`miner`, `transactions`, `reward` or `hash` fields differ, so an accepted
proof of work does not bind the winning miner's identity. -/
theorem calculateBlockHash_ignores_miner (b1 b2 : Block)
    (h1 : b1.index = b2.index) (h2 : b1.timestamp = b2.timestamp)
    (h3 : b1.previousHash = b2.previousHash) (h4 : b1.merkleRoot = b2.merkleRoot)
    (h5 : b1.nonce = b2.nonce) (h6 : b1.difficulty = b2.difficulty) :
    calculateBlockHash b1 = calculateBlockHash b2 := by
  unfold calculateBlockHash headerJson
  rw [h1, h2, h3, h4, h5, h6]

theorem calculateBlockHash_ignores_miner_witness :
    calculateBlockHash blockByMinerA = calculateBlockHash blockByMinerB :=
  calculateBlockHash_ignores_miner blockByMinerA blockByMinerB rfl rfl rfl rfl rfl rfl

/-! ## Claim C6 — difficulty adjustment -/

/-- Claim C6: the adjuster leaves the difficulty unchanged until the chain
has at least `DIFFICULTY_ADJUSTMENT_BLOCKS + 1` blocks; otherwise (whenever
the actual window time is nonzero, so the ratio is an ordinary division) the
new difficulty is `max(1, floor(oldDifficulty * ratio * supplyFactor *
timeFactor))` with the ratio clamped to `[0.5, 2.0]` before the growth-factor
multiplication, and the adjusted difficulty is always `≥ 1`. Quantified over
every value of the two growth factors. -/
theorem adjustDifficulty_spec (ts : List Int) (supplyFactor timeFactor d : ℚ) :
    (ts.length < DIFFICULTY_ADJUSTMENT_BLOCKS + 1 →
      adjustDifficulty ts supplyFactor timeFactor d = d) ∧
    (DIFFICULTY_ADJUSTMENT_BLOCKS + 1 ≤ ts.length → actualMiningTime ts ≠ 0 →
      adjustDifficulty ts supplyFactor timeFactor d =
        max 1 (⌊d * clampedRatioSpec (actualMiningTime ts) * supplyFactor * timeFactor⌋ : ℚ) ∧
      1 ≤ adjustDifficulty ts supplyFactor timeFactor d) := by
  constructor
  · intro h
    simp [adjustDifficulty, h]
  · intro h1 h2
    have hlt : ¬ ts.length < DIFFICULTY_ADJUSTMENT_BLOCKS + 1 := by omega
    have heq : adjustDifficulty ts supplyFactor timeFactor d =
        max 1 (⌊d * clampedRatioSpec (actualMiningTime ts) * supplyFactor * timeFactor⌋ : ℚ) := by
      simp only [adjustDifficulty, hlt, if_false, clampedRatioSpec, recentWindow,
        actualMiningTime] at h2 ⊢
      rw [if_neg h2]
    exact ⟨heq, heq ▸ le_max_left 1 _⟩

/-! ## Chain invariant preservation (claims C2 and C10) -/

/-- The canonical header ignores the `hash` property. -/
theorem calculateBlockHash_set_hash (b : Block) (h : String) :
    calculateBlockHash { b with hash := h } = calculateBlockHash b := rfl

/-- The invariant only reads the chain, the challenge, and the supply. -/
theorem stateInv_of_eq {s s' : BlixnodeServer} (h : StateInv s) (hc : s'.chain = s.chain)
    (hch : s'.currentChallenge = s.currentChallenge)
    (ht : s'.totalSupply = s.totalSupply) : StateInv s' := by
  unfold StateInv ChainIndexed ChainLinked TipHashed ChallengeConsistent SupplyAccounted at h ⊢
  rw [hc, hch, ht]
  exact h

theorem chainIndexed_concat {c : List Block} {b : Block} (h : ChainIndexed c)
    (hb : b.index = c.length) : ChainIndexed (c ++ [b]) := by
  intro i hi
  simp only [List.get_eq_getElem]
  simp only [List.length_append, List.length_cons, List.length_nil] at hi
  rcases Nat.lt_or_ge i c.length with hlt | hge
  · rw [List.getElem_append_left hlt]
    have := h i hlt
    simpa using this
  · have hieq : i = c.length := by omega
    subst hieq
    simp [hb]

theorem chainLinked_concat {c : List Block} {b : Block}
    (hl : ChainLinked c) (htip : TipHashed c)
    (hprev : ∀ t, c.getLast? = some t → b.previousHash = t.hash) :
    ChainLinked (c ++ [b]) := by
  intro i hi
  simp only [List.get_eq_getElem]
  simp only [List.length_append, List.length_cons, List.length_nil] at hi
  rcases Nat.lt_or_ge (i + 1) c.length with hlt | hge
  · rw [List.getElem_append_left hlt, List.getElem_append_left (show i < c.length by omega)]
    have := hl i hlt
    simpa using this
  · have hieq : i + 1 = c.length := by omega
    have hi2 : i < c.length := by omega
    rw [List.getElem_append_left hi2]
    have hlast : c.getLast? = some (c.get ⟨i, hi2⟩) := by
      rw [List.getLast?_eq_getElem?]
      have h3 : c.length - 1 = i := by omega
      rw [h3, List.getElem?_eq_getElem hi2]
      rfl
    simp only [hieq, List.getElem_concat_length]
    rw [hprev _ hlast, htip _ hlast]
    rfl

theorem tipHashed_concat {c : List Block} {b : Block} (hb : b.hash = calculateBlockHash b) :
    TipHashed (c ++ [b]) := by
  intro t ht
  rw [List.getLast?_concat] at ht
  rw [Option.some.injEq] at ht
  rw [← ht]
  exact hb

/-- Committing a block that extends the tip at the next height preserves the
invariant. -/
theorem stateInv_commit (s : BlixnodeServer) (blk : Block) (h : StateInv s)
    (hidx : blk.index = s.chain.length)
    (hprev : ∀ t, s.chain.getLast? = some t → blk.previousHash = t.hash)
    (hhash : blk.hash = calculateBlockHash blk) :
    StateInv { addBlock s blk with miningInProgress := false, currentChallenge := none } := by
  obtain ⟨h1, h2, h3, h4, h5, h6⟩ := h
  have hchain : ({ addBlock s blk with miningInProgress := false, currentChallenge := none } : BlixnodeServer).chain = s.chain ++ [blk] := rfl
  have hsupply : ({ addBlock s blk with miningInProgress := false, currentChallenge := none } : BlixnodeServer).totalSupply = s.totalSupply + blk.reward.getD 0 := rfl
  unfold StateInv
  refine ⟨?_, ?_, ?_, ?_, ?_, ?_, ?_⟩
  · rw [hchain]
    simp
  · rw [hchain]
    exact chainIndexed_concat h2 hidx
  · rw [hchain]
    exact chainLinked_concat h3 h4 hprev
  · rw [hchain]
    exact tipHashed_concat hhash
  · intro ch hch
    exact Option.noConfusion hch
  · rw [hsupply, hchain]
    simp only [List.map_append, List.sum_append, List.map_cons, List.map_nil,
      List.sum_cons, List.sum_nil]
    rw [h6.1]
    ring
  · intro b hb
    rw [hchain, List.head?_append_of_ne_nil _ h1] at hb
    exact h6.2 b hb

/-- Round start preserves the invariant: the chain is untouched and the
freshly installed challenge extends the tip at the next height. -/
theorem stateInv_startMiningRound (env : Env) (s : BlixnodeServer) (h : StateInv s) :
    StateInv (startMiningRound env s) := by
  obtain ⟨h1, h2, h3, h4, h5, h6⟩ := h
  unfold startMiningRound
  split
  · exact ⟨h1, h2, h3, h4, h5, h6⟩
  · refine ⟨h1, h2, h3, h4, fun ch hch => ?_, h6⟩
    cases hch
    refine ⟨rfl, fun b hb => ?_⟩
    have hb2 : s.chain.getLast? = some b := hb
    show (s.chain.getLastD (createGenesisBlock 0)).hash = b.hash
    rw [List.getLastD_eq_getLast?, hb2]
    rfl

/-- The transaction-submission route touches only the pending pool. -/
theorem stateInv_submitTransaction (s : BlixnodeServer) (tx : TxIn) (h : StateInv s) :
    StateInv (submitTransaction s tx).1 := by
  apply stateInv_of_eq h <;>
    · unfold submitTransaction
      split <;> try rfl
      all_goals split <;> try rfl
      all_goals split <;> rfl

/-- Disconnection touches only the membership set. -/
theorem stateInv_handleDisconnect (s : BlixnodeServer) (a : String) (h : StateInv s) :
    StateInv (handleDisconnect s a) :=
  stateInv_of_eq h rfl rfl rfl

/-- The join handler either leaves the state alone, registers a wallet, or
additionally starts a round. -/
theorem stateInv_handlePoolJoin (env : Env) (s : BlixnodeServer) (a : String)
    (h : StateInv s) : StateInv (handlePoolJoin env s a).1 := by
  unfold handlePoolJoin
  split
  · exact h
  · split
    · exact h
    · split
      · exact stateInv_startMiningRound env _ (stateInv_of_eq h rfl rfl rfl)
      · exact stateInv_of_eq h rfl rfl rfl

/-- The solution handler either rejects (leaving the state alone) or commits
a block that extends the tip at the challenge's height. -/
theorem stateInv_handleSolutionSubmit (s : BlixnodeServer) (m : SubmitMsg)
    (h : StateInv s) : StateInv (handleSolutionSubmit s m).1 := by
  rcases hch : s.currentChallenge with _ | ch
  · simp only [handleSolutionSubmit, hch]
    exact h
  · simp only [handleSolutionSubmit, hch]
    split
    · exact h
    · split
      · exact h
      · apply stateInv_commit s _ h
        · exact (h.2.2.2.2.1 ch hch).1
        · exact fun t ht => (h.2.2.2.2.1 ch hch).2 t ht
        · exact (calculateBlockHash_set_hash _ _).symm

/-- The genesis state satisfies the invariant. -/
theorem stateInv_init (t : Int) : StateInv (initState t) := by
  unfold StateInv ChainIndexed ChainLinked TipHashed ChallengeConsistent SupplyAccounted
  refine ⟨by simp [initState], ?_, ?_, ?_, ?_, ?_, ?_⟩
  · intro i hi
    simp [initState] at hi
    subst hi
    rfl
  · intro i hi
    simp [initState] at hi
  · intro b hb
    simp only [initState, List.getLast?_cons, List.getLast?_nil] at hb
    cases hb
    rfl
  · intro ch hch
    exact Option.noConfusion hch
  · simp [initState, createGenesisBlock]
  · intro b hb
    simp only [initState, List.head?_cons, Option.some.injEq] at hb
    rw [← hb]
    rfl

/-- Every reachable coordinator state satisfies the invariant. -/
theorem reachable_stateInv {s : BlixnodeServer} (h : Reachable s) : StateInv s := by
  induction h with
  | init t => exact stateInv_init t
  | next e _ ih =>
    cases e with
    | txSubmit tx => exact stateInv_submitTransaction _ tx ih
    | poolJoin env a => exact stateInv_handlePoolJoin env _ a ih
    | solutionSubmit m => exact stateInv_handleSolutionSubmit _ m ih
    | disconnect a => exact stateInv_handleDisconnect _ a ih
    | roundTimer env => exact stateInv_startMiningRound env _ ih

/-! ## Claim C2 — chain linkage and indexing -/

/-- Claim C2: in every coordinator state reachable through the controller's
operations (genesis creation at construction, round start, solution commit,
and the remaining event handlers), every block's `index` equals its position
`i`, and for all `i > 0` the block's `previousHash` equals the double SHA-256
of block `i-1`'s canonical header (see `ChainIndexed` and `ChainLinked`). -/
theorem chain_integrity (s : BlixnodeServer) (h : Reachable s) :
    ChainIndexed s.chain ∧ ChainLinked s.chain :=
  ⟨(reachable_stateInv h).2.1, (reachable_stateInv h).2.2.1⟩

theorem chain_integrity_witness :
    ChainIndexed (initState 0).chain ∧ ChainLinked (initState 0).chain :=
  chain_integrity (initState 0) (Reachable.init 0)

/-! ## Claim C10 — supply accounting -/

/-- Claim C10: every commit via `addBlock` grows the chain by exactly one
block and the supply by exactly the committed block's reward, a missing
reward property (as on the genesis block) contributing `0` (the source's
`block.reward || 0`); consequently in every reachable state `totalSupply`
equals the sum of the rewards of the committed non-genesis blocks. -/
theorem supply_accounting :
    (∀ (s : BlixnodeServer) (b : Block),
      (addBlock s b).chain.length = s.chain.length + 1 ∧
      (addBlock s b).totalSupply = s.totalSupply + b.reward.getD 0) ∧
    (∀ s : BlixnodeServer, Reachable s →
      s.totalSupply = ((s.chain.drop 1).map fun b => b.reward.getD 0).sum) := by
  constructor
  · intro s b
    exact ⟨by simp [addBlock], rfl⟩
  · intro s h
    obtain ⟨h1, _, _, _, _, hsum, hhead⟩ := reachable_stateInv h
    have hr : ∀ hd tl, s.chain = hd :: tl →
        s.totalSupply = ((tl).map fun b => b.reward.getD 0).sum := by
      intro hd tl hc
      have hn : hd.reward = none := hhead hd (by rw [hc]; rfl)
      rw [hsum, hc]
      simp [hn]
    rcases hc : s.chain with _ | ⟨hd, tl⟩
    · exact absurd hc h1
    · exact hr hd tl hc

theorem supply_accounting_witness :
    ((addBlock (initState 0) supplyWitnessBlock).chain.length =
        (initState 0).chain.length + 1 ∧
     (addBlock (initState 0) supplyWitnessBlock).totalSupply =
       (initState 0).totalSupply + supplyWitnessBlock.reward.getD 0) ∧
    (initState 0).totalSupply =
      (((initState 0).chain.drop 1).map fun b => b.reward.getD 0).sum :=
  ⟨supply_accounting.1 (initState 0) supplyWitnessBlock,
   supply_accounting.2 (initState 0) (Reachable.init 0)⟩

/-! ## Claim C1 — at most one winner per opened round -/

/-- Claim C1: on the first submission that passes the hash-recomputation and
target checks, exactly one block is appended and the round reference
(`currentChallenge`) is cleared within the same handler invocation — before
any further submission can be evaluated, since the event loop serializes
handlers. In the resulting state every later submission is answered with the
error `No active challenge` and leaves the state unchanged, so at most one
block is committed per opened round. -/
theorem single_winner_per_round (s : BlixnodeServer) (m : SubmitMsg)
    (h : isMined (handleSolutionSubmit s m).2 = true) :
    (handleSolutionSubmit s m).1.currentChallenge = none ∧
    (handleSolutionSubmit s m).1.chain.length = s.chain.length + 1 ∧
    ∀ m2 : SubmitMsg, handleSolutionSubmit (handleSolutionSubmit s m).1 m2 =
      ((handleSolutionSubmit s m).1, SubmitResp.errorResp ("No active challenge")) := by
  rcases hch : s.currentChallenge with _ | ch
  · simp [handleSolutionSubmit, hch, isMined] at h
  · by_cases h1 : calculateBlockHash (solutionBlock ch.blockTemplate m.nonce m.walletAddress) ≠ m.hash
    · simp only [handleSolutionSubmit, hch, if_pos h1] at h
      simp [isMined] at h
    · by_cases h2 : (!hashMeetsTarget m.hash s.difficulty) = true
      · simp only [handleSolutionSubmit, hch, if_neg h1, if_pos h2] at h
        simp [isMined] at h
      · have hE : handleSolutionSubmit s m =
            ({ addBlock s
                { solutionBlock ch.blockTemplate m.nonce m.walletAddress with
                  hash := calculateBlockHash (solutionBlock ch.blockTemplate m.nonce m.walletAddress) } with
               miningInProgress := false, currentChallenge := none },
             SubmitResp.mined { solutionBlock ch.blockTemplate m.nonce m.walletAddress with
               hash := calculateBlockHash (solutionBlock ch.blockTemplate m.nonce m.walletAddress) }) := by
          simp only [handleSolutionSubmit, hch, if_neg h1, if_neg h2]
        refine ⟨by rw [hE], ?_, fun m2 => ?_⟩
        · rw [hE]
          simp [addBlock]
        · rw [hE]
          rfl

/-! ## Claim C5 — rejection conditions and rejection purity -/

/-- Claim C5: for every state whose difficulty is at least 1 (an invariant of
every real coordinator state), a solution submission is rejected exactly
under the claim's three conditions, and every rejection returns only a
machine-readable reason, leaving the whole state — chain, round, pool,
supply — unchanged. -/
theorem solution_rejection_exact (s : BlixnodeServer) (m : SubmitMsg)
    (hd : 1 ≤ s.difficulty) :
    isRejection (handleSolutionSubmit s m).2 = rejectionSpec s m ∧
    (isRejection (handleSolutionSubmit s m).2 = true → (handleSolutionSubmit s m).1 = s) := by
  have htarget : calculateTarget s.difficulty = maxTarget / s.difficulty := by
    unfold calculateTarget
    rw [Nat.max_eq_right hd]
  rcases hch : s.currentChallenge with _ | ch
  · exact ⟨by simp [handleSolutionSubmit, hch, isRejection, rejectionSpec],
      fun _ => by simp [handleSolutionSubmit, hch]⟩
  · by_cases h1 : calculateBlockHash (solutionBlock ch.blockTemplate m.nonce m.walletAddress) ≠ m.hash
    · refine ⟨?_, fun _ => ?_⟩
      · simp only [handleSolutionSubmit, rejectionSpec, hch, if_pos h1]
        simp [isRejection, bne_iff_ne, h1]
      · simp only [handleSolutionSubmit, hch, if_pos h1]
    · by_cases h2 : (!hashMeetsTarget m.hash s.difficulty) = true
      · refine ⟨?_, fun _ => ?_⟩
        · simp only [handleSolutionSubmit, rejectionSpec, hch, if_neg h1, if_pos h2]
          simp only [hashMeetsTarget, htarget, Bool.not_eq_true', decide_eq_false_iff_not] at h2
          simp [isRejection, bne_iff_ne, h2]
        · simp only [handleSolutionSubmit, hch, if_neg h1, if_pos h2]
      · refine ⟨?_, fun hrej => ?_⟩
        · simp only [handleSolutionSubmit, rejectionSpec, hch, if_neg h1, if_neg h2]
          simp only [hashMeetsTarget, htarget, Bool.not_eq_true', decide_eq_false_iff_not,
            not_not] at h2
          simp only [not_not] at h1
          simp [isRejection, bne_iff_ne, h1, h2]
        · simp only [handleSolutionSubmit, hch, if_neg h1, if_neg h2] at hrej
          simp [isRejection] at hrej

theorem single_winner_per_round_witness :
    isMined (handleSolutionSubmit witnessChallengeState witnessSubmit).2 = true ∧
    (handleSolutionSubmit witnessChallengeState witnessSubmit).1.currentChallenge = none ∧
    (handleSolutionSubmit witnessChallengeState witnessSubmit).1.chain.length =
      witnessChallengeState.chain.length + 1 ∧
    handleSolutionSubmit (handleSolutionSubmit witnessChallengeState witnessSubmit).1
        witnessSubmit =
      ((handleSolutionSubmit witnessChallengeState witnessSubmit).1,
        SubmitResp.errorResp ("No active challenge")) := by
  have h : isMined (handleSolutionSubmit witnessChallengeState witnessSubmit).2 = true := by
    decide
  obtain ⟨a, b, c⟩ := single_winner_per_round witnessChallengeState witnessSubmit h
  exact ⟨h, a, b, c witnessSubmit⟩

theorem solution_rejection_exact_witness :
    1 ≤ (initState 0).difficulty ∧
    isRejection (handleSolutionSubmit (initState 0) staleSubmitMsg).2 =
      rejectionSpec (initState 0) staleSubmitMsg ∧
    (isRejection (handleSolutionSubmit (initState 0) staleSubmitMsg).2 = true →
      (handleSolutionSubmit (initState 0) staleSubmitMsg).1 = initState 0) := by
  have hd : 1 ≤ (initState 0).difficulty := by decide
  obtain ⟨a, b⟩ := solution_rejection_exact (initState 0) staleSubmitMsg hd
  exact ⟨hd, a, b⟩

/-! ## Claim C3 — transaction replay protection -/

/-- Claim C3, counterexample: the submit route checks replay only against
`processedTxIds`, which is populated exclusively by `addBlock` when a block
is committed; it never records ids at submission time. Submitting the same
valid transaction twice to a fresh coordinator therefore admits it twice —
the second submission is not rejected as a replay. -/
theorem tx_replay_counterexample :
    (submitTransaction (initState 0) cTx).2 = TxResp.admitted (txId cTx) ∧
    (submitTransaction (submitTransaction (initState 0) cTx).1 cTx).2 =
      TxResp.admitted (txId cTx) := by decide

/-- Claim C3 (amended): identical canonical payloads always receive the same
deterministic id, and a submission of a valid transaction is rejected as a
replay exactly when that id is already in the processed-id set — that is,
when an identical transaction has already been committed into a block;
otherwise (pool not full) it is admitted and appended to the pending pool,
even if an identical transaction is already pending. -/
theorem tx_replay_amended (s : BlixnodeServer) (tx : TxIn)
    (hv : validateTransaction tx = none) :
    (∀ tx2 : TxIn, tx.sender = tx2.sender → tx.recipient = tx2.recipient →
      tx.amount = tx2.amount → tx.fee = tx2.fee → tx.nonce = tx2.nonce →
      tx.timestamp = tx2.timestamp → txId tx = txId tx2) ∧
    (s.processedTxIds.contains (txId tx) = true →
      submitTransaction s tx =
        (s, TxResp.replay ("Transaction already processed (possible replay attack)"))) ∧
    (s.processedTxIds.contains (txId tx) = false →
      s.pendingTransactions.length < MAX_PENDING_TRANSACTIONS →
      submitTransaction s tx =
        ({ s with pendingTransactions := s.pendingTransactions ++ [⟨tx, txId tx⟩] },
         TxResp.admitted (txId tx))) := by
  refine ⟨fun tx2 e1 e2 e3 e4 e5 e6 => ?_, fun hmem => ?_, fun hmem hlen => ?_⟩
  · unfold txId txCanonicalJson
    rw [e1, e2, e3, e4, e5, e6]
  · simp only [submitTransaction, hv, hmem]
    rfl
  · simp only [submitTransaction, hv]
    rw [if_neg (by simp only [hmem]; exact Bool.false_ne_true), if_neg (by omega)]

theorem tx_replay_amended_witness :
    validateTransaction cTx = none ∧
    txId cTx = txId cTx ∧
    submitTransaction (initState 0) cTx =
      ({ initState 0 with
          pendingTransactions := (initState 0).pendingTransactions ++ [⟨cTx, txId cTx⟩] },
       TxResp.admitted (txId cTx)) := by
  have hv : validateTransaction cTx = none := by decide
  obtain ⟨a, _, c⟩ := tx_replay_amended (initState 0) cTx hv
  exact ⟨hv, a cTx rfl rfl rfl rfl rfl rfl, c (by decide) (by decide)⟩

/-! ## Claim C8 — pool join -/

/-- Claim C8: a join with an already-registered wallet address is rejected
with an error and no side effect whatsoever on the state (in particular the
membership set and the round state are untouched); and when two participants
join an idle coordinator with an empty pool (`MIN_POOL_SIZE = 2`), no round
opens on the first join and a round opens on the second. -/
theorem pool_join_spec (env1 env2 : Env) (s : BlixnodeServer) (a b : String) :
    ((s.connectedWallets.map Prod.fst).contains a = true →
      (handlePoolJoin env1 s a).1 = s ∧ isJoinError (handlePoolJoin env1 s a).2 = true) ∧
    (s.connectedWallets = [] → s.miningInProgress = false → s.currentChallenge = none →
      isValidAddress a = true → isValidAddress b = true → a ≠ b →
      (handlePoolJoin env1 s a).1.currentChallenge = none ∧
      (handlePoolJoin env1 s a).1.miningInProgress = false ∧
      (handlePoolJoin env1 s a).1.connectedWallets.map Prod.fst = [a] ∧
      (handlePoolJoin env2 (handlePoolJoin env1 s a).1 b).1.miningInProgress = true ∧
      ((handlePoolJoin env2 (handlePoolJoin env1 s a).1 b).1.currentChallenge).isSome = true) := by
  constructor
  · intro hdup
    by_cases hva : isValidAddress a = true
    · unfold handlePoolJoin
      rw [if_neg (by simp [hva]), if_pos hdup]
      exact ⟨rfl, rfl⟩
    · unfold handlePoolJoin
      rw [if_pos hva]
      exact ⟨rfl, rfl⟩
  · intro h0 hm hc hva hvb hne
    obtain ⟨w, pend, proc, chain, cur, mip, gt, ts, d⟩ := s
    simp only at h0 hm hc
    subst h0
    subst hm
    subst hc
    refine ⟨?_, ?_, ?_, ?_, ?_⟩ <;>
      simp [handlePoolJoin, startMiningRound, canStartMining, MIN_POOL_SIZE, hva, hvb,
        Ne.symm hne]

theorem pool_join_spec_witness :
    ((handlePoolJoin ⟨0, 1⟩ joinDupState walletA).1 = joinDupState ∧
      isJoinError (handlePoolJoin ⟨0, 1⟩ joinDupState walletA).2 = true) ∧
    ((handlePoolJoin ⟨0, 1⟩ (initState 0) walletA).1.currentChallenge = none ∧
     (handlePoolJoin ⟨0, 1⟩ (initState 0) walletA).1.miningInProgress = false ∧
     (handlePoolJoin ⟨0, 1⟩ (initState 0) walletA).1.connectedWallets.map Prod.fst = [walletA] ∧
     (handlePoolJoin ⟨1, 1⟩ (handlePoolJoin ⟨0, 1⟩ (initState 0) walletA).1 walletB).1.miningInProgress = true ∧
     ((handlePoolJoin ⟨1, 1⟩ (handlePoolJoin ⟨0, 1⟩ (initState 0) walletA).1 walletB).1.currentChallenge).isSome = true) :=
  ⟨(pool_join_spec ⟨0, 1⟩ ⟨0, 1⟩ joinDupState walletA walletB).1 (by decide),
   (pool_join_spec ⟨0, 1⟩ ⟨1, 1⟩ (initState 0) walletA walletB).2 rfl rfl rfl
     (by decide) (by decide) (by decide)⟩

theorem adjustDifficulty_spec_witness :
    adjustDifficulty [0, 1, 2, 3, 4, 5, 6, 7, 8, 9, 10] 1 1 1 =
      max 1 (⌊(1 : ℚ) * clampedRatioSpec (actualMiningTime [0, 1, 2, 3, 4, 5, 6, 7, 8, 9, 10]) * 1 * 1⌋ : ℚ) ∧
    1 ≤ adjustDifficulty [0, 1, 2, 3, 4, 5, 6, 7, 8, 9, 10] 1 1 1 :=
  (adjustDifficulty_spec [0, 1, 2, 3, 4, 5, 6, 7, 8, 9, 10] 1 1 1).2
    (by decide) (by decide)

end Blixchain
